import Mathlib

/-!
Shallow embedding of `random_survival_forest/RandomSurvivalForest.py` and
verification of the forest-orchestration contracts stated in the spec.

Modelling conventions:
* numpy's legacy global generator (`np.random.*`) is a pseudo-random state
  threaded explicitly as a natural number `g`; `np.random.seed(k)` replaces it
  by `seedInit k`; `np.random.RandomState(seed=k)` is a fresh state `seedInit k`.
  The concrete generator is an LCG: only determinism and state-threading matter
  to the verified properties, never the distribution of the draws.
* `np.random.RandomState(seed=None)` (unseeded) draws its entropy from the OS;
  this ambient entropy is an explicit parameter `ambient` of `fit`.
* A pandas `Series` holding a CHF is a list of `(time, value)` breakpoints
  (`CHFSeries`).  For out-of-bag arithmetic, where the per-tree Series share the
  common timeline index, Series arithmetic acts key-pointwise and is modelled by
  the total function `seriesVal`, giving CHFs as functions `ℚ → ℚ`.
* `SurvivalTree` and `scoring.concordance_index` are external collaborators
  (their sources are not part of the forest module).  A tree's behaviour is an
  arbitrary oracle `TreeBehavior` recording the construction inputs the forest
  passed in; the scorer's non-empty-cohort value is an arbitrary function
  parameter.  Forest-level theorems hold for every such oracle.
-/

namespace RSF

/-! ### Pseudo-random generator model -/

/-- One step of the modelled generator (a 64-bit LCG). -/
def lcgStep (s : Nat) : Nat := (6364136223846793005 * s + 1442695040888963407) % 2 ^ 64

/-- Initial generator state obtained from an integer seed: models both
`np.random.seed(k)` (for the global state) and `np.random.RandomState(seed=k)`. -/
def seedInit (k : Nat) : Nat := lcgStep (k + 2531011)

/-- A bounded draw from state `s`: a value in `[0, n)` (for `n > 0`). -/
def rngVal (s n : Nat) : Nat := (s / 2 ^ 16) % n

/-- `RandomState(seed).randint(0, bound, count)`: `count` draws below `bound`,
threading the generator state. -/
def randintList (s bound : Nat) : Nat → List Nat
  | 0 => []
  | n + 1 => rngVal s bound :: randintList (lcgStep s) bound n

/-- `np.random.choice(range(popSize), size)` (legacy `RandomState.choice`,
with replacement): raises `ValueError` on an empty population, otherwise
returns the drawn indices together with the advanced generator state. -/
def npChoice (s popSize size : Nat) : Except String (List Nat × Nat) :=
  if popSize = 0 then .error "ValueError: a must be non-empty"
  else .ok ((List.range size).map fun j => rngVal (lcgStep^[j] s) popSize, lcgStep^[size] s)

/-- Fisher–Yates draw-without-replacement walk over a list, consuming generator
states `s, lcgStep s, …` (the model of numpy's shuffling kernel). -/
def shuffleGo (s : Nat) (l : List Nat) : List Nat :=
  if h : l = [] then []
  else
    have hl : 0 < l.length := List.length_pos.mpr h
    have hj : s % l.length < l.length := Nat.mod_lt _ hl
    l.get ⟨s % l.length, hj⟩ :: shuffleGo (lcgStep s) (l.eraseIdx (s % l.length))
termination_by l.length
decreasing_by
  have := List.length_eraseIdx_add_one hj
  omega

/-- `np.random.permutation(n)` evaluated from generator state `s`. -/
def npPermutation (s n : Nat) : List Nat := shuffleGo s (List.range n)

/-! ### Data model -/

/-- `int(round(np.sqrt(m), 0))`: the integer nearest to `√m` (the half-way case
never arises because `√m` is either an integer or irrational). -/
def roundSqrt (m : Nat) : Nat :=
  let s := Nat.sqrt m
  if m ≤ s * s + s then s else s + 1

/-- A CHF as a pandas `Series`: ordered `(time, value)` breakpoints. -/
abbrev CHFSeries := List (ℚ × ℚ)

/-- A CHF as a key-pointwise function (Series arithmetic over a shared index). -/
abbrev CHF := ℚ → ℚ

/-- Value of a Series at key `t` (sum of the values stored at `t`; `0` when the
key is absent; the unique value when the index is duplicate-free). -/
def seriesVal (c : CHFSeries) (t : ℚ) : ℚ := ((c.filter fun p => p.1 = t).map Prod.snd).sum

/-- The construction inputs the forest hands to `SurvivalTree(...)`.
`bootstrap` records the index set whose rows were selected by
`x.iloc[bootstrap_idxs[i], :]` (provenance of `x_rows`/`y_rows`). -/
structure TreeInput where
  bootstrap : List Nat
  x_rows : List (List ℚ)
  y_rows : List (ℚ × ℚ)
  f_idxs : List Nat
  n_features : Nat
  timeline : Option (List ℚ)
  unique_deaths : Nat
  min_leaf : Nat
  random_state : Nat

/-- A fitted `SurvivalTree` (external collaborator): its construction inputs, the
`prediction_possible` flag set during construction, and its CHF predictor. -/
structure SurvivalTree where
  input : TreeInput
  prediction_possible : Bool
  predictFn : List ℚ → CHFSeries

instance : Inhabited SurvivalTree :=
  ⟨⟨⟨[], [], [], [], 0, none, 0, 0, 0⟩, false, fun _ => []⟩⟩

/-- The (unknown) internals of the external `SurvivalTree`: from the inputs,
the flag and the predictor the constructed tree will expose. -/
abbrev TreeBehavior := TreeInput → Bool × (List ℚ → CHFSeries)

/-- The constructor arguments of `RandomSurvivalForest`.  `n_jobs = none` models
Python `None`; `some (-1)` the all-cores sentinel. -/
structure ForestCfg where
  n_estimators : Nat
  min_leaf : Nat
  unique_deaths : Nat
  timeline : Option (List ℚ)
  n_jobs : Option Int
  random_state : Option Nat

/-- The class-level mutable attributes `RandomSurvivalForest.trees` /
`.bootstraps`: shared lists that `fit` appends to (and never resets). -/
structure ClassState where
  trees : List SurvivalTree
  bootstraps : List (List Nat)

/-- `x.shape[1]`: the column count of the feature frame. -/
def ncols (x : List (List ℚ)) : Nat := (x.headD []).length

/-- `frame.iloc[idxs, :]`: row selection by position. -/
def selectRows {α : Type} [Inhabited α] (x : List α) (idxs : List Nat) : List α :=
  idxs.map fun j => x.getD j default

/-! ### The forest operations (`RandomSurvivalForest.py`) -/

/-- The `n_jobs` resolution at the top of `fit`: `-1` becomes
`multiprocessing.cpu_count()`, `None` becomes `1`, anything else is kept. -/
def resolve_n_jobs (n_jobs : Option Int) (cpu_count : Int) : Int :=
  if n_jobs = some (-1) then cpu_count
  else match n_jobs with
    | none => 1
    | some k => k

/-- `create_tree(self, x, y, i)`: choose the feature subset (from the tree's own
`RandomState` when the forest is seeded, from the global generator `g`
otherwise) and construct the `SurvivalTree` on the bootstrap rows.  Returns the
tree and the advanced global generator state. -/
def create_tree (B : TreeBehavior) (cfg : ForestCfg) (random_states : List Nat)
    (bootstrap_idxs : List (List Nat)) (x : List (List ℚ)) (y : List (ℚ × ℚ))
    (i : Nat) (g : Nat) : SurvivalTree × Nat :=
  let n_features := roundSqrt (ncols x)
  let fg : List Nat × Nat :=
    match cfg.random_state with
    | none => ((npPermutation g (ncols x)).take n_features, lcgStep g)
    | some _ =>
        ((npPermutation (seedInit (random_states.getD i 0)) (ncols x)).take n_features, g)
  let input : TreeInput :=
    { bootstrap := bootstrap_idxs.getD i []
      x_rows := selectRows x (bootstrap_idxs.getD i [])
      y_rows := selectRows y (bootstrap_idxs.getD i [])
      f_idxs := fg.1
      n_features := n_features
      timeline := cfg.timeline
      unique_deaths := cfg.unique_deaths
      min_leaf := cfg.min_leaf
      random_state := random_states.getD i 0 }
  ({ input := input, prediction_possible := (B input).1, predictFn := (B input).2 }, fg.2)

/-- The loop body of `draw_bootstrap_samples`: one `np.random.choice` of
`n_samples` indices per remaining tree, reseeding the global generator with the
tree's derived state first when the forest is seeded.  `cnt` trees remain,
`i` is the current tree index, `g` the global generator state. -/
def drawGo (random_state : Option Nat) (random_states : List Nat) (n_samples : Nat) :
    Nat → Nat → Nat → Except String (List (List Nat) × Nat)
  | 0, _, g => .ok ([], g)
  | cnt + 1, i, g =>
    let s : Nat :=
      match random_state with
      | none => g
      | some _ => seedInit (random_states.getD i 0)
    match npChoice s n_samples n_samples with
    | .error e => .error e
    | .ok (idxs, g') =>
      match drawGo random_state random_states n_samples cnt (i + 1) g' with
      | .error e => .error e
      | .ok (rest, g'') => .ok (idxs :: rest, g'')

/-- `draw_bootstrap_samples(self, data)`: one index sequence per planned tree. -/
def draw_bootstrap_samples (cfg : ForestCfg) (random_states : List Nat)
    (n_samples : Nat) (g : Nat) : Except String (List (List Nat) × Nat) :=
  drawGo cfg.random_state random_states n_samples cfg.n_estimators 0 g

/-- `Parallel(...)(delayed(self.create_tree)(x, y, i) for i in range(n_estimators))`:
results are collected in submission order.  `cnt` trees remain to build from
index `i`; in unseeded mode the global generator threads through the calls
(sequential `n_jobs = 1` semantics; in seeded mode no call reads it). -/
def buildTreesLoop (B : TreeBehavior) (cfg : ForestCfg) (random_states : List Nat)
    (bootstrap_idxs : List (List Nat)) (x : List (List ℚ)) (y : List (ℚ × ℚ)) :
    Nat → Nat → Nat → List SurvivalTree × Nat
  | 0, _, g => ([], g)
  | cnt + 1, i, g =>
    let tg := create_tree B cfg random_states bootstrap_idxs x y i g
    let rest := buildTreesLoop B cfg random_states bootstrap_idxs x y cnt (i + 1) tg.2
    (tg.1 :: rest.1, rest.2)

/-- The filtering loop of `fit`: walk the built trees and their bootstrap index
sets in parallel (the Python loop indexes both lists by the same `i`), appending
to the accumulated class-level lists exactly the pairs whose tree reports
`prediction_possible is True`. -/
def filterLoop : List SurvivalTree → List (List Nat) →
    List SurvivalTree × List (List Nat) → List SurvivalTree × List (List Nat)
  | [], _, acc => acc
  | _ :: _, [], acc => acc
  | tr :: ts, bi :: bs, acc =>
    if tr.prediction_possible = true then filterLoop ts bs (acc.1 ++ [tr], acc.2 ++ [bi])
    else filterLoop ts bs acc

/-- The inner loop of `compute_oob_ensembles` for one sample: over the aligned
`(tree, bootstrap)` pairs, skip the trees whose bootstrap contains the sample
index and accumulate `denominator` and the pointwise `numerator`. -/
def oob_chf_for_sample (pairs : List (SurvivalTree × List Nat)) (sample : List ℚ)
    (sample_idx : Nat) : Nat × CHF :=
  pairs.foldl
    (fun (p : Nat × CHF) tb =>
      if sample_idx ∈ tb.2 then p
      else (p.1 + 1, fun t => p.2 t + seriesVal (tb.1.predictFn sample) t))
    (0, fun _ => 0)

/-- `compute_oob_ensembles(self, x)`: for each training sample, the mean CHF of
the trees whose bootstrap draw excludes it; samples with `denominator == 0`
are skipped (`continue`). -/
def compute_oob_ensembles (trees : List SurvivalTree) (bootstraps : List (List Nat))
    (x : List (List ℚ)) : List CHF :=
  (List.range x.length).foldl
    (fun acc sample_idx =>
      let dn := oob_chf_for_sample (trees.zip bootstraps) (x.getD sample_idx []) sample_idx
      if dn.1 = 0 then acc else acc ++ [fun t => dn.2 t / (dn.1 : ℚ)])
    []

/-- Modelled from the spec: `scoring.concordance_index` (the file
`scoring.py` is not part of the forest module).  Per §4.3/§7 of the spec it
returns a scalar for a non-empty cohort and an explicit undefined sentinel
(`none`) when the reduced OOB cohort is empty; the non-empty value is an
arbitrary external `scorer`. -/
def concordance_index (scorer : List ℚ → List CHF → List ℚ → ℚ)
    (y_time : List ℚ) (y_pred : List CHF) (y_event : List ℚ) : Option ℚ :=
  if y_pred.isEmpty then none else some (scorer y_time y_pred y_event)

/-- `compute_oob_score(self, x, y)`. -/
def compute_oob_score (scorer : List ℚ → List CHF → List ℚ → ℚ)
    (trees : List SurvivalTree) (bootstraps : List (List Nat))
    (x : List (List ℚ)) (y : List (ℚ × ℚ)) : Option ℚ :=
  concordance_index scorer (y.map Prod.fst) (compute_oob_ensembles trees bootstraps x)
    (y.map Prod.snd)

/-- Insertion of a time point into an ascending list. -/
def insertTime (t : ℚ) : List ℚ → List ℚ
  | [] => [t]
  | a :: rest => if t ≤ a then t :: a :: rest else a :: insertTime t rest

/-- Ascending insertion sort of time points. -/
def sortTimes : List ℚ → List ℚ
  | [] => []
  | a :: rest => insertTime a (sortTimes rest)

/-- The distinct keys of a concatenated Series, in ascending order (the group
keys of `groupby(level=0)`). -/
def sortedKeys (s : List (ℚ × ℚ)) : List ℚ := sortTimes ((s.map Prod.fst).dedup)

/-- `pd.concat(chfs).groupby(level=0).mean()` applied to the stacked
`(time, value)` pairs `s`: for each distinct key, the arithmetic mean of all
values stored at exactly that key. -/
def groupbyMean (s : List (ℚ × ℚ)) : CHFSeries :=
  (sortedKeys s).map fun t =>
    let vs := (s.filter fun p => p.1 = t).map Prod.snd
    (t, vs.sum / (vs.length : ℚ))

/-- `predict(self, xs)`: per row, every tree's CHF, stacked by `pd.concat` and
merged by `groupby(level=0).mean()`; `pd.concat` of an empty list of Series
(zero fitted trees) raises `ValueError: No objects to concatenate`. -/
def predict (trees : List SurvivalTree) (xs : List (List ℚ)) :
    Except String (List CHFSeries) :=
  xs.mapM fun xr =>
    let chfs := trees.map fun q => q.predictFn xr
    if chfs.isEmpty then .error "ValueError: No objects to concatenate"
    else .ok (groupbyMean chfs.flatten)

/-- The stages of `fit`, in the order the Python statements execute; the trace
returned by `fit` records how far execution got. -/
inductive Stage
  | resolveJobs
  | genRandomStates
  | drawBootstraps
  | buildTrees
  | filterTrees
  | oobScore
deriving DecidableEq

/-- The result state of a completed `fit` call: the (now always numeric)
`n_jobs`, the per-tree random states and bootstrap index sets, the class-level
tree/bootstrap lists after filtering, the stored OOB score, and the final
global generator state. -/
structure FitResult where
  n_jobs : Int
  random_states : List Nat
  bootstrap_idxs : List (List Nat)
  trees : List SurvivalTree
  bootstraps : List (List Nat)
  oob_score : Option ℚ
  g : Nat

/-- The seed of `np.random.RandomState(seed=self.random_state)`: the forest
seed when one was given, OS entropy (`ambient`) otherwise. -/
def fitSeed (cfg : ForestCfg) (ambient : Nat) : Nat :=
  match cfg.random_state with
  | some s => seedInit s
  | none => seedInit ambient

/-- `self.random_states = np.random.RandomState(seed=self.random_state)
.randint(0, 2**31-1, self.n_estimators)`: all per-tree random states, derived
up front from the forest seed. -/
def fit_random_states (cfg : ForestCfg) (ambient : Nat) : List Nat :=
  randintList (fitSeed cfg ambient) (2 ^ 31 - 1) cfg.n_estimators

/-- `fit(self, x, y)`: resolve `n_jobs`, derive all per-tree random states from
the forest seed, draw all bootstrap index sets, build the trees, filter them
together with their bootstrap sets into the class-level lists, and compute the
OOB score.  `cs` is the incoming class-level state, `g` the global numpy
generator state and `ambient` the OS entropy used by `RandomState(seed=None)`
when unseeded. -/
def fit (B : TreeBehavior) (scorer : List ℚ → List CHF → List ℚ → ℚ)
    (cfg : ForestCfg) (cs : ClassState) (x : List (List ℚ)) (y : List (ℚ × ℚ))
    (cpu_count : Int) (g ambient : Nat) : List Stage × Except String FitResult :=
  let nj := resolve_n_jobs cfg.n_jobs cpu_count
  let random_states := fit_random_states cfg ambient
  match draw_bootstrap_samples cfg random_states x.length g with
  | .error e => ([.resolveJobs, .genRandomStates, .drawBootstraps], .error e)
  | .ok (bootstrap_idxs, g1) =>
    let bg := buildTreesLoop B cfg random_states bootstrap_idxs x y cfg.n_estimators 0 g1
    let tb := filterLoop bg.1 bootstrap_idxs (cs.trees, cs.bootstraps)
    let oob := compute_oob_score scorer tb.1 tb.2 x y
    ([.resolveJobs, .genRandomStates, .drawBootstraps, .buildTrees, .filterTrees, .oobScore],
      .ok { n_jobs := nj, random_states := random_states, bootstrap_idxs := bootstrap_idxs,
            trees := tb.1, bootstraps := tb.2, oob_score := oob, g := bg.2 })

/-- The generator state feeding the feature-subset permutation of tree `i`:
the tree's own derived `RandomState` when the forest is seeded, the global
state `g` otherwise. -/
def fIdxsSource (cfg : ForestCfg) (random_states : List Nat) (i g : Nat) : Nat :=
  match cfg.random_state with
  | none => g
  | some _ => seedInit (random_states.getD i 0)

instance : Inhabited FitResult := ⟨⟨1, [], [], [], [], none, 0⟩⟩

/-- Unpack a successful fit result (used only to name concrete results). -/
def okOr (e : Except String FitResult) : FitResult :=
  match e with
  | .ok r => r
  | .error _ => default

/-- The observable fitted state of a `fit` result: everything the object
retains except the final global generator state. -/
def fitCore (r : FitResult) :
    Int × List Nat × List (List Nat) × List SurvivalTree × List (List Nat) × Option ℚ :=
  (r.n_jobs, r.random_states, r.bootstrap_idxs, r.trees, r.bootstraps, r.oob_score)

/-- A concrete fitted tree used to instantiate hypothesis-bearing theorems. -/
def demoTree : SurvivalTree :=
  { input := { bootstrap := [1], x_rows := [[1]], y_rows := [(1, 1)], f_idxs := [0],
               n_features := 1, timeline := none, unique_deaths := 3, min_leaf := 3,
               random_state := 7 }
    prediction_possible := true
    predictFn := fun _ => [(2, 3)] }

/-- A trivial external concordance scorer for concrete instantiations. -/
def demoScorer : List ℚ → List CHF → List ℚ → ℚ := fun _ _ _ => 0

/-- A tree-construction oracle whose trees can always predict. -/
def demoBehavior : TreeBehavior := fun _ => (true, fun _ => [(1, 1), (2, 2)])

/-- A concrete forest configuration: 2 trees, seeded. -/
def demoCfg : ForestCfg :=
  { n_estimators := 2, min_leaf := 3, unique_deaths := 3, timeline := none,
    n_jobs := none, random_state := some 5 }

/-- Concrete 3-sample training features. -/
def demoX : List (List ℚ) := [[0], [1], [2]]

/-- Concrete 3-sample training labels (time, event). -/
def demoY : List (ℚ × ℚ) := [(1, 1), (2, 0), (3, 1)]

/-- A concrete seeded `fit` call starting from fresh class-level state. -/
def demoFit : List Stage × Except String FitResult :=
  fit demoBehavior demoScorer demoCfg ⟨[], []⟩ demoX demoY 4 0 0

/-- The result of the concrete `fit` call. -/
def demoRes : FitResult := okOr demoFit.2

/-- A fitted tree predicting the step function with breakpoints 1 ↦ 1/10 and
3 ↦ 2/5 (the first CHF of the spec's aggregation scenario). -/
def cexTreeA : SurvivalTree :=
  { input := { bootstrap := [], x_rows := [], y_rows := [], f_idxs := [], n_features := 0,
               timeline := none, unique_deaths := 3, min_leaf := 3, random_state := 0 }
    prediction_possible := true
    predictFn := fun _ => [(1, 1 / 10), (3, 2 / 5)] }

/-- A fitted tree predicting the step function with breakpoints 2 ↦ 1/5 and
3 ↦ 1/2 (the second CHF of the spec's aggregation scenario). -/
def cexTreeB : SurvivalTree :=
  { input := { bootstrap := [], x_rows := [], y_rows := [], f_idxs := [], n_features := 0,
               timeline := none, unique_deaths := 3, min_leaf := 3, random_state := 0 }
    prediction_possible := true
    predictFn := fun _ => [(2, 1 / 5), (3, 1 / 2)] }

/-- The value a right-continuous step function takes at time `t`: the value of
the last breakpoint at or before `t` (`0` before the first breakpoint). -/
def stepValueAt (c : CHFSeries) (t : ℚ) : ℚ :=
  ((c.filter fun p => p.1 ≤ t).map Prod.snd).getLastD 0

/-- The aggregation the spec describes for `predict`: align the per-tree CHFs on
the union of all their time points and, at each aligned time point, average the
trees' right-continuous carried-forward values. -/
def specMergeCarryForward (chfs : List CHFSeries) : CHFSeries :=
  (sortedKeys chfs.flatten).map fun t =>
    (t, (chfs.map fun c => stepValueAt c t).sum / (chfs.length : ℚ))

/-- The OOB estimate `compute_oob_ensembles` produces for one sample, in closed
form: `none` (no entry) when no fitted tree excludes the sample from its
bootstrap draw, otherwise the unweighted pointwise mean of the qualifying
trees' predictions. -/
def oobEntry (trees : List SurvivalTree) (bootstraps : List (List Nat))
    (x : List (List ℚ)) (sample_idx : Nat) : Option CHF :=
  let q := (trees.zip bootstraps).filter fun tb => decide (sample_idx ∉ tb.2)
  if q.length = 0 then none
  else some fun t =>
    ((q.map fun tb => seriesVal (tb.1.predictFn (x.getD sample_idx [])) t).sum) / (q.length : ℚ)

/-! ### Permutation facts about the shuffling kernel -/

/-- Removing the selected element and putting it in front is a permutation. -/
theorem cons_eraseIdx_perm (l : List Nat) (j : Nat) (hj : j < l.length) :
    (l.get ⟨j, hj⟩ :: l.eraseIdx j).Perm l := by
  have hdrop : l.get ⟨j, hj⟩ :: l.drop (j + 1) = l.drop j := by
    simp [List.getElem_cons_drop]
  have hmid : (l.get ⟨j, hj⟩ :: (l.take j ++ l.drop (j + 1))).Perm
      (l.take j ++ l.get ⟨j, hj⟩ :: l.drop (j + 1)) := List.perm_middle.symm
  have hback : l.take j ++ l.get ⟨j, hj⟩ :: l.drop (j + 1) = l := by
    rw [hdrop, List.take_append_drop]
  rw [List.eraseIdx_eq_take_drop_succ]
  refine hmid.trans ?_
  rw [hback]

/-- The Fisher–Yates walk returns a permutation of its input list. -/
theorem shuffleGo_perm (n : Nat) :
    ∀ (l : List Nat), l.length ≤ n → ∀ (s : Nat), (shuffleGo s l).Perm l := by
  induction n with
  | zero =>
    intro l hl s
    have : l = [] := List.length_eq_zero.mp (Nat.le_zero.mp hl)
    subst this
    rw [shuffleGo]
    simp
  | succ n ih =>
    intro l hl s
    by_cases h : l = []
    · subst h
      rw [shuffleGo]
      simp
    · have hlen : 0 < l.length := List.length_pos.mpr h
      have hj : s % l.length < l.length := Nat.mod_lt _ hlen
      rw [shuffleGo]
      simp only [dif_neg h]
      have herase : (l.eraseIdx (s % l.length)).length ≤ n := by
        have := List.length_eraseIdx_add_one hj
        omega
      exact ((ih _ herase (lcgStep s)).cons _).trans (cons_eraseIdx_perm l _ hj)

/-- `np.random.permutation(n)` is a permutation of `[0, …, n-1]`. -/
theorem npPermutation_perm (s n : Nat) : (npPermutation s n).Perm (List.range n) :=
  shuffleGo_perm (List.range n).length (List.range n) le_rfl s

/-! ### C1: out-of-bag estimates -/

/-- The accumulator loop of `compute_oob_ensembles`, run from an arbitrary
starting pair, counts the qualifying trees and sums their predictions. -/
theorem oob_fold_shift (sample : List ℚ) (sample_idx : Nat)
    (pairs : List (SurvivalTree × List Nat)) :
    ∀ (d0 : Nat) (f0 : CHF),
      pairs.foldl
        (fun (p : Nat × CHF) tb =>
          if sample_idx ∈ tb.2 then p
          else (p.1 + 1, fun t => p.2 t + seriesVal (tb.1.predictFn sample) t))
        (d0, f0)
      = (d0 + (pairs.filter fun tb => decide (sample_idx ∉ tb.2)).length,
         fun t => f0 t + ((pairs.filter fun tb => decide (sample_idx ∉ tb.2)).map
           fun tb => seriesVal (tb.1.predictFn sample) t).sum) := by
  induction pairs with
  | nil => intro d0 f0; simp
  | cons tb rest ih =>
    intro d0 f0
    by_cases hm : sample_idx ∈ tb.2
    · have hd : decide (sample_idx ∉ tb.2) = false := by simp [hm]
      simp only [List.foldl_cons, if_pos hm]
      rw [ih]
      simp [List.filter_cons, hm]
    · have hd : decide (sample_idx ∉ tb.2) = true := by simp [hm]
      simp only [List.foldl_cons, if_neg hm]
      rw [ih]
      simp only [List.filter_cons, hd, if_true, List.length_cons, List.map_cons,
        List.sum_cons, Prod.mk.injEq]
      refine ⟨by omega, ?_⟩
      funext t
      ring

/-- Closed form of the per-sample inner loop. -/
theorem oob_chf_for_sample_eq (pairs : List (SurvivalTree × List Nat))
    (sample : List ℚ) (sample_idx : Nat) :
    oob_chf_for_sample pairs sample sample_idx
      = ((pairs.filter fun tb => decide (sample_idx ∉ tb.2)).length,
         fun t => ((pairs.filter fun tb => decide (sample_idx ∉ tb.2)).map
           fun tb => seriesVal (tb.1.predictFn sample) t).sum) := by
  unfold oob_chf_for_sample
  rw [oob_fold_shift]
  simp

/-- A fold that appends an optional entry per element collects the entries. -/
theorem foldl_collect {α : Type} (f : α → Option CHF) (L : List α) :
    ∀ acc : List CHF,
      L.foldl (fun acc s => match f s with | none => acc | some v => acc ++ [v]) acc
        = acc ++ L.filterMap f := by
  induction L with
  | nil => intro acc; simp
  | cons s rest ih =>
    intro acc
    simp only [List.foldl_cons, List.filterMap_cons]
    cases hf : f s with
    | none => rw [ih]
    | some v =>
      rw [ih, List.append_assoc]
      rfl

/-- One step of the `compute_oob_ensembles` loop, in terms of `oobEntry`. -/
theorem oob_step_eq (trees : List SurvivalTree) (bootstraps : List (List Nat))
    (x : List (List ℚ)) (acc : List CHF) (s : Nat) :
    (let dn := oob_chf_for_sample (trees.zip bootstraps) (x.getD s []) s
     if dn.1 = 0 then acc else acc ++ [fun t => dn.2 t / (dn.1 : ℚ)])
    = match oobEntry trees bootstraps x s with
      | none => acc
      | some v => acc ++ [v] := by
  simp only [oob_chf_for_sample_eq, oobEntry]
  by_cases h :
      ((trees.zip bootstraps).filter fun tb => decide (s ∉ tb.2)).length = 0
  · rw [if_pos h, if_pos h]
  · rw [if_neg h, if_neg h]

/-- The skip-accumulate loop of `compute_oob_ensembles` collects exactly the
non-skipped closed-form entries. -/
theorem compute_oob_ensembles_fold (trees : List SurvivalTree)
    (bootstraps : List (List Nat)) (x : List (List ℚ)) (L : List Nat)
    (acc : List CHF) :
    L.foldl
      (fun acc sample_idx =>
        let dn := oob_chf_for_sample (trees.zip bootstraps) (x.getD sample_idx []) sample_idx
        if dn.1 = 0 then acc else acc ++ [fun t => dn.2 t / (dn.1 : ℚ)])
      acc
    = acc ++ L.filterMap (oobEntry trees bootstraps x) := by
  rw [List.foldl_ext _
    (fun acc s => match oobEntry trees bootstraps x s with
      | none => acc
      | some v => acc ++ [v]) acc
    (fun a b _ => oob_step_eq trees bootstraps x a b)]
  exact foldl_collect _ L acc

/-- C1: for every training sample, the OOB CHF estimate of
`compute_oob_ensembles` is the unweighted pointwise mean of `tree.predict`
over exactly the fitted trees whose bootstrap index set does not contain the
sample; a sample with zero qualifying trees contributes no entry at all, and
when exactly one tree qualifies the estimate is that tree's prediction. -/
theorem oob_estimate_is_mean_over_excluding_trees (trees : List SurvivalTree)
    (bootstraps : List (List Nat)) (x : List (List ℚ)) :
    compute_oob_ensembles trees bootstraps x
      = (List.range x.length).filterMap (oobEntry trees bootstraps x) ∧
    (∀ sample_idx, oobEntry trees bootstraps x sample_idx = none ↔
      ((trees.zip bootstraps).filter fun tb => decide (sample_idx ∉ tb.2)) = []) ∧
    (∀ sample_idx tb,
      ((trees.zip bootstraps).filter fun tb => decide (sample_idx ∉ tb.2)) = [tb] →
      oobEntry trees bootstraps x sample_idx
        = some fun t => seriesVal (tb.1.predictFn (x.getD sample_idx [])) t) := by
  refine ⟨?_, ?_, ?_⟩
  · unfold compute_oob_ensembles
    rw [compute_oob_ensembles_fold]
    simp
  · intro sample_idx
    unfold oobEntry
    constructor
    · intro h
      by_cases hq :
          ((trees.zip bootstraps).filter fun tb => decide (sample_idx ∉ tb.2)).length = 0
      · exact List.length_eq_zero.mp hq
      · simp only [if_neg hq] at h
        exact absurd h (Option.some_ne_none _)
    · intro h
      simp only [h]
      rfl
  · intro sample_idx tb h
    simp only [oobEntry, h]
    have : ¬ ([tb].length = 0) := by simp
    rw [if_neg this]
    simp

/-! ### C3: tree/bootstrap alignment after `fit` -/

/-- A successful bootstrap-drawing loop returns one index set per tree slot. -/
theorem drawGo_ok_length (ropt : Option Nat) (rss : List Nat) (n : Nat) :
    ∀ (cnt i g : Nat) (l : List (List Nat)) (g' : Nat),
      drawGo ropt rss n cnt i g = .ok (l, g') → l.length = cnt := by
  intro cnt
  induction cnt with
  | zero =>
    intro i g l g' h
    simp only [drawGo] at h
    cases h
    rfl
  | succ cnt ih =>
    intro i g l g' h
    simp only [drawGo] at h
    split at h
    · cases h
    · split at h
      · cases h
      · cases h
        rename_i g1 rest g2 hdraw
        simp [ih _ _ _ _ hdraw]

/-- The tree built at slot `i` records the bootstrap index set at slot `i`. -/
theorem create_tree_bootstrap (B : TreeBehavior) (cfg : ForestCfg)
    (rss : List Nat) (bidx : List (List Nat)) (x : List (List ℚ))
    (y : List (ℚ × ℚ)) (i g : Nat) :
    (create_tree B cfg rss bidx x y i g).1.input.bootstrap = bidx.getD i [] := by
  unfold create_tree
  cases cfg.random_state <;> rfl

/-- The parallel build collects one tree per slot, in submission order. -/
theorem buildTreesLoop_length (B : TreeBehavior) (cfg : ForestCfg)
    (rss : List Nat) (bidx : List (List Nat)) (x : List (List ℚ))
    (y : List (ℚ × ℚ)) :
    ∀ cnt i g, ((buildTreesLoop B cfg rss bidx x y cnt i g).1).length = cnt := by
  intro cnt
  induction cnt with
  | zero => intro i g; rfl
  | succ cnt ih => intro i g; simp [buildTreesLoop, ih]

/-- Every tree the build loop pairs positionally with the bootstrap list was
constructed from exactly that bootstrap index set. -/
theorem buildTreesLoop_zip_mem (B : TreeBehavior) (cfg : ForestCfg)
    (rss : List Nat) (bidx : List (List Nat)) (x : List (List ℚ))
    (y : List (ℚ × ℚ)) :
    ∀ cnt i g, ∀ p ∈ ((buildTreesLoop B cfg rss bidx x y cnt i g).1).zip (bidx.drop i),
      p.1.input.bootstrap = p.2 := by
  intro cnt
  induction cnt with
  | zero =>
    intro i g p hp
    simp only [buildTreesLoop, List.zip_nil_left] at hp
    cases hp
  | succ cnt ih =>
    intro i g p hp
    by_cases hi : i < bidx.length
    · rw [List.drop_eq_getElem_cons hi] at hp
      simp only [buildTreesLoop, List.zip_cons_cons, List.mem_cons] at hp
      rcases hp with hp | hp
      · subst hp
        rw [create_tree_bootstrap]
        exact List.getD_eq_getElem bidx [] hi
      · exact ih (i + 1) _ p hp
    · have : bidx.drop i = [] := List.drop_eq_nil_of_le (by omega)
      rw [this, List.zip_nil_right] at hp
      cases hp

/-- The filtering loop appends, to the accumulated class-level lists, the
(tree, bootstrap) pairs with `prediction_possible` set, projected to the two
lists and keeping relative order. -/
theorem filterLoop_spec :
    ∀ (built : List SurvivalTree) (bidx : List (List Nat))
      (accT : List SurvivalTree) (accB : List (List Nat)),
      filterLoop built bidx (accT, accB)
        = (accT ++ (((built.zip bidx).filter fun p => p.1.prediction_possible).map Prod.fst),
           accB ++ (((built.zip bidx).filter fun p => p.1.prediction_possible).map Prod.snd)) := by
  intro built
  induction built with
  | nil => intro bidx accT accB; simp [filterLoop]
  | cons tr ts ih =>
    intro bidx accT accB
    cases bidx with
    | nil => simp [filterLoop]
    | cons bi bs =>
      by_cases hp : tr.prediction_possible = true
      · simp only [filterLoop, if_pos hp, ih, List.zip_cons_cons, List.filter_cons, hp,
          if_true, List.map_cons, List.append_assoc]
        rfl
      · simp only [filterLoop, if_neg hp, ih, List.zip_cons_cons, List.filter_cons,
          Bool.of_not_eq_true hp, List.map_cons]
        rfl

/-- C3: after every completed `fit` call, the retained tree list and the
retained bootstrap-index list have equal length; every retained tree is paired
positionally with exactly the bootstrap index set it was constructed from; and
the filter dropped the trees with `prediction_possible = False` together with
their bootstrap sets, preserving relative order (both lists extend the incoming
class-level lists by the same stable filter of the built pairs). -/
theorem fit_alignment_invariant (B : TreeBehavior)
    (scorer : List ℚ → List CHF → List ℚ → ℚ) (cfg : ForestCfg) (cs : ClassState)
    (x : List (List ℚ)) (y : List (ℚ × ℚ)) (cpu : Int) (g amb : Nat) (r : FitResult)
    (hpair : ∀ p ∈ cs.trees.zip cs.bootstraps, p.1.input.bootstrap = p.2)
    (hlen : cs.trees.length = cs.bootstraps.length)
    (hok : (fit B scorer cfg cs x y cpu g amb).2 = .ok r) :
    r.trees.length = r.bootstraps.length ∧
    (∀ p ∈ r.trees.zip r.bootstraps, p.1.input.bootstrap = p.2) ∧
    ∃ built : List SurvivalTree,
      built.length = cfg.n_estimators ∧
      r.bootstrap_idxs.length = cfg.n_estimators ∧
      r.trees = cs.trees
        ++ (((built.zip r.bootstrap_idxs).filter fun p => p.1.prediction_possible).map
          Prod.fst) ∧
      r.bootstraps = cs.bootstraps
        ++ (((built.zip r.bootstrap_idxs).filter fun p => p.1.prediction_possible).map
          Prod.snd) := by
  simp only [fit] at hok
  split at hok
  · cases hok
  · rename_i bidx g1 heq
    cases hok
    set rss := fit_random_states cfg amb with hrss
    set built := (buildTreesLoop B cfg rss bidx x y cfg.n_estimators 0 g1).1 with hbuilt
    have hbl : built.length = cfg.n_estimators := buildTreesLoop_length B cfg rss bidx x y _ 0 g1
    have hbil : bidx.length = cfg.n_estimators := drawGo_ok_length _ rss x.length _ 0 g _ _ heq
    have hflt := filterLoop_spec built bidx cs.trees cs.bootstraps
    have hmem : ∀ p ∈ built.zip bidx, p.1.input.bootstrap = p.2 := by
      intro p hp
      exact buildTreesLoop_zip_mem B cfg rss bidx x y cfg.n_estimators 0 g1 p (by simpa using hp)
    constructor
    · simp [hflt, hlen]
    constructor
    · intro p hp
      simp only [hflt] at hp
      rw [List.zip_append (by simp [hlen])] at hp
      have hzipf : ((((built.zip bidx).filter fun p => p.1.prediction_possible).map
            Prod.fst).zip
          (((built.zip bidx).filter fun p => p.1.prediction_possible).map Prod.snd))
          = ((built.zip bidx).filter fun p => p.1.prediction_possible) := by
        rw [List.zip_map']
        simp
      rw [hzipf] at hp
      rcases List.mem_append.mp hp with hcs | hfl
      · exact hpair p hcs
      · exact hmem p (List.filter_subset' _ hfl)
    · exact ⟨built, hbl, hbil, by simp [hflt], by simp [hflt]⟩

/-- Witness for C3: a concrete seeded 2-tree `fit` from fresh class state
satisfies the alignment invariant. -/
theorem fit_alignment_witness :
    demoFit.2 = .ok demoRes ∧ demoRes.trees.length = demoRes.bootstraps.length := by
  have hok : demoFit.2 = .ok demoRes := rfl
  exact ⟨hok, (fit_alignment_invariant demoBehavior demoScorer demoCfg ⟨[], []⟩ demoX demoY
    4 0 0 demoRes (fun p hp => absurd hp (List.not_mem_nil p)) rfl hok).1⟩

/-- Witness for C1: with one fitted tree whose bootstrap set contains sample 1
but not sample 0, sample 0's OOB estimate equals that tree's prediction. -/
theorem oob_estimate_witness :
    oobEntry [demoTree] [[1]] [[0], [1]] 0
      = some fun t => seriesVal (demoTree.predictFn [0]) t :=
  (oob_estimate_is_mean_over_excluding_trees [demoTree] [[1]] [[0], [1]]).2.2 0
    (demoTree, [1]) rfl

/-! ### C2: prediction-time CHF aggregation -/

/-- With at least one fitted tree, `predict` succeeds and merges each row's
per-tree CHFs by the groupby-mean. -/
theorem predict_ok (trees : List SurvivalTree) (hne : trees ≠ [])
    (xs : List (List ℚ)) :
    predict trees xs
      = .ok (xs.map fun xr => groupbyMean ((trees.map fun q => q.predictFn xr).flatten)) := by
  have hignore : ∀ xr : List ℚ, (trees.map fun q => q.predictFn xr).isEmpty = false := by
    intro xr
    cases trees with
    | nil => exact absurd rfl hne
    | cons a l => rfl
  unfold predict
  induction xs with
  | nil => rfl
  | cons xr rest ih =>
    rw [List.mapM_cons, ih]
    simp only [hignore xr, Bool.false_eq_true, if_false]
    rfl

/-- Stacked-filter value sum: summing the stacked values at key `t` is summing
the per-Series values at `t`. -/
theorem sum_filter_flatten (t : ℚ) (chfs : List CHFSeries) :
    ((chfs.flatten.filter fun p => p.1 = t).map Prod.snd).sum
      = (chfs.map fun c => seriesVal c t).sum := by
  induction chfs with
  | nil => rfl
  | cons c rest ih =>
    simp only [List.flatten_cons, List.filter_append, List.map_append, List.sum_append,
      List.map_cons, List.sum_cons, ih]
    rfl

/-- A Series without key `t` contributes value `0` at `t`. -/
theorem seriesVal_of_not_mem (c : CHFSeries) (t : ℚ) (h : t ∉ c.map Prod.fst) :
    seriesVal c t = 0 := by
  unfold seriesVal
  have hnil : c.filter (fun p => p.1 = t) = [] := by
    rw [List.filter_eq_nil_iff]
    intro p hp
    simp only [decide_eq_true_eq]
    intro hpt
    exact h (hpt ▸ List.mem_map_of_mem Prod.fst hp)
  rw [hnil]
  rfl

/-- The per-tree value sum restricted to the trees holding key `t`. -/
theorem sum_seriesVal_present (t : ℚ) (chfs : List CHFSeries) :
    (chfs.map fun c => seriesVal c t).sum
      = ((chfs.filter fun c => decide (t ∈ c.map Prod.fst)).map fun c => seriesVal c t).sum := by
  induction chfs with
  | nil => rfl
  | cons c rest ih =>
    by_cases hc : t ∈ c.map Prod.fst
    · simp [List.filter_cons, hc, ih]
    · simp [List.filter_cons, hc, ih, seriesVal_of_not_mem c t hc]

/-- In a Series with duplicate-free index, key `t` is stored at most once. -/
theorem filter_key_length (t : ℚ) (c : CHFSeries) (hnd : (c.map Prod.fst).Nodup) :
    (c.filter fun p => p.1 = t).length = if t ∈ c.map Prod.fst then 1 else 0 := by
  induction c with
  | nil => simp
  | cons p rest ih =>
    simp only [List.map_cons, List.nodup_cons] at hnd
    obtain ⟨hp, hrest⟩ := hnd
    by_cases hpt : p.1 = t
    · have hnot : t ∉ rest.map Prod.fst := hpt ▸ hp
      have hz : (rest.filter fun p => p.1 = t).length = 0 := by
        rw [ih hrest, if_neg hnot]
      simp [List.filter_cons, hpt, hz]
    · have : (t ∈ p.1 :: rest.map Prod.fst) ↔ t ∈ rest.map Prod.fst := by
        constructor
        · intro h
          rcases List.mem_cons.mp h with h | h
          · exact absurd h.symm hpt
          · exact h
        · exact fun h => List.mem_cons_of_mem _ h
      have hd : decide (p.1 = t) = false := by simp [hpt]
      rw [List.filter_cons, hd]
      simp only [Bool.false_eq_true, if_false]
      rw [ih hrest, List.map_cons]
      exact (if_congr this rfl rfl).symm

/-- Stacked-filter length: with duplicate-free per-Series keys, the number of
stacked entries at key `t` is the number of Series holding key `t`. -/
theorem length_filter_flatten (t : ℚ) (chfs : List CHFSeries)
    (hnd : ∀ c ∈ chfs, (c.map Prod.fst).Nodup) :
    (chfs.flatten.filter fun p => p.1 = t).length
      = (chfs.filter fun c => decide (t ∈ c.map Prod.fst)).length := by
  induction chfs with
  | nil => rfl
  | cons c rest ih =>
    have hc := hnd c (List.mem_cons_self c rest)
    have hrest := fun d hd => hnd d (List.mem_cons_of_mem c hd)
    simp only [List.flatten_cons, List.filter_append, List.length_append, ih hrest,
      filter_key_length t c hc, List.filter_cons]
    by_cases hm : t ∈ c.map Prod.fst
    · simp only [hm, if_true, decide_true_eq_true]
      simp [hm]
      omega
    · simp [hm]

/-- Every inserted time list keeps exactly the original members. -/
theorem mem_insertTime (t a : ℚ) (l : List ℚ) :
    a ∈ insertTime t l ↔ a = t ∨ a ∈ l := by
  induction l with
  | nil => simp [insertTime]
  | cons b rest ih =>
    by_cases h : t ≤ b
    · simp [insertTime, h]
    · simp only [insertTime, if_neg h, List.mem_cons, ih]
      tauto

/-- Sorting the time points keeps exactly the original members. -/
theorem mem_sortTimes (a : ℚ) (l : List ℚ) : a ∈ sortTimes l ↔ a ∈ l := by
  induction l with
  | nil => simp [sortTimes]
  | cons b rest ih => simp [sortTimes, mem_insertTime, ih]

/-- The group keys of `groupby(level=0)` are exactly the stacked keys. -/
theorem mem_sortedKeys (s : List (ℚ × ℚ)) (t : ℚ) :
    t ∈ sortedKeys s ↔ t ∈ s.map Prod.fst := by
  simp [sortedKeys, mem_sortTimes, List.mem_dedup]

/-- C2 (amended): with at least one fitted tree, `predict` returns one merged
CHF per input row in input row order, merging the per-tree step functions on
the union of their time points; at each aligned time point the merged value is
the mean over only those trees whose CHF has a breakpoint exactly at that time
point (trees without a breakpoint there are absent from that average — their
values are not carried forward). -/
theorem predict_merges_by_groupby_mean (trees : List SurvivalTree)
    (xs : List (List ℚ)) (hne : trees ≠ []) :
    predict trees xs
      = .ok (xs.map fun xr => groupbyMean ((trees.map fun q => q.predictFn xr).flatten)) ∧
    ∀ (xr : List ℚ) (t : ℚ),
      (∀ c ∈ trees.map fun q => q.predictFn xr, (c.map Prod.fst).Nodup) →
      t ∈ ((trees.map fun q => q.predictFn xr).flatten).map Prod.fst →
      (t, ((((trees.map fun q => q.predictFn xr).filter fun c =>
              decide (t ∈ c.map Prod.fst)).map fun c => seriesVal c t).sum)
          / ((((trees.map fun q => q.predictFn xr).filter fun c =>
              decide (t ∈ c.map Prod.fst)).length : ℚ)))
        ∈ groupbyMean ((trees.map fun q => q.predictFn xr).flatten) := by
  refine ⟨predict_ok trees hne xs, ?_⟩
  intro xr t hnd ht
  have hk : t ∈ sortedKeys ((trees.map fun q => q.predictFn xr).flatten) :=
    (mem_sortedKeys _ t).mpr ht
  have hmem := List.mem_map_of_mem
    (fun t => (t, ((((trees.map fun q => q.predictFn xr).flatten.filter
        fun p => p.1 = t).map Prod.snd).sum)
      / ((((trees.map fun q => q.predictFn xr).flatten.filter
        fun p => p.1 = t).map Prod.snd).length : ℚ))) hk
  have hsum : (((trees.map fun q => q.predictFn xr).flatten.filter
        fun p => p.1 = t).map Prod.snd).sum
      = (((trees.map fun q => q.predictFn xr).filter fun c =>
          decide (t ∈ c.map Prod.fst)).map fun c => seriesVal c t).sum := by
    rw [sum_filter_flatten, sum_seriesVal_present]
  have hlen : (((trees.map fun q => q.predictFn xr).flatten.filter
        fun p => p.1 = t).map Prod.snd).length
      = ((trees.map fun q => q.predictFn xr).filter fun c =>
          decide (t ∈ c.map Prod.fst)).length := by
    rw [List.length_map]
    exact length_filter_flatten t _ hnd
  rw [← hsum, ← hlen]
  exact hmem

/-- C2 (counterexample): with trees whose CHFs break at times 1,3 resp. 2,3,
the code's merged CHF at time 2 is 1/5 (only the second tree is averaged),
while the carry-forward alignment the claim describes yields 3/20; the merged
row therefore differs from the carry-forward merge. -/
theorem predict_not_carry_forward :
    predict [cexTreeA, cexTreeB] [[0]]
      = .ok [groupbyMean [(1, 1 / 10), (3, 2 / 5), (2, 1 / 5), (3, 1 / 2)]] ∧
    groupbyMean [(1, (1 : ℚ) / 10), (3, 2 / 5), (2, 1 / 5), (3, 1 / 2)]
      = [(1, 1 / 10), (2, 1 / 5), (3, 9 / 20)] ∧
    specMergeCarryForward [cexTreeA.predictFn [0], cexTreeB.predictFn [0]]
      = [(1, 1 / 20), (2, 3 / 20), (3, 9 / 20)] ∧
    ¬ ([(1, (1 : ℚ) / 10), (2, 1 / 5), (3, 9 / 20)] : CHFSeries)
      = [(1, 1 / 20), (2, 3 / 20), (3, 9 / 20)] := by
  have hkeys : sortedKeys [(1, (1 : ℚ) / 10), (3, 2 / 5), (2, 1 / 5), (3, 1 / 2)]
      = [1, 2, 3] := by
    decide
  refine ⟨?_, ?_, ?_, ?_⟩
  · rw [predict_ok _ (List.cons_ne_nil _ _)]
    rfl
  · unfold groupbyMean
    rw [hkeys]
    simp only [List.map_cons, List.map_nil, List.filter_cons, List.filter_nil]
    norm_num
  · have hkeys2 : sortedKeys
        ([cexTreeA.predictFn [0], cexTreeB.predictFn [0]] : List CHFSeries).flatten
        = [1, 2, 3] := by decide
    unfold specMergeCarryForward
    rw [hkeys2]
    simp only [cexTreeA, cexTreeB, stepValueAt, List.map_cons, List.map_nil,
      List.filter_cons, List.filter_nil]
    norm_num
  · intro h
    simp only [List.cons.injEq, Prod.mk.injEq] at h
    have h110 := h.1.2
    norm_num at h110

/-- Witness for C2 at the two concrete trees of the aggregation scenario. -/
theorem predict_merge_witness :
    predict [cexTreeA, cexTreeB] [[0]]
      = .ok ([[0]].map fun xr =>
          groupbyMean (([cexTreeA, cexTreeB].map fun q => q.predictFn xr).flatten)) :=
  (predict_merges_by_groupby_mean [cexTreeA, cexTreeB] [[0]]
    (List.cons_ne_nil cexTreeA [cexTreeB])).1

/-! ### C4 and C5: seed determinism and parallelism invariance -/

/-- In seeded mode the bootstrap-drawing loop ignores the incoming global
generator state entirely (each draw reseeds it first), except for the state
returned by an empty loop. -/
theorem drawGo_seeded_g_irrelevant (s0 : Nat) (rss : List Nat)
    (n cnt i g₁ g₂ : Nat) :
    drawGo (some s0) rss n (cnt + 1) i g₁ = drawGo (some s0) rss n (cnt + 1) i g₂ := rfl

/-- The drawn bootstrap index sets in seeded mode do not depend on the incoming
global generator state. -/
theorem drawGo_seeded_fst (s0 : Nat) (rss : List Nat) (n cnt i g₁ g₂ : Nat) :
    (drawGo (some s0) rss n cnt i g₁).map Prod.fst
      = (drawGo (some s0) rss n cnt i g₂).map Prod.fst := by
  cases cnt with
  | zero => rfl
  | succ cnt => rw [drawGo_seeded_g_irrelevant s0 rss n cnt i g₁ g₂]

/-- In seeded mode `create_tree` neither reads nor advances the global
generator state. -/
theorem create_tree_seeded (B : TreeBehavior) (cfg : ForestCfg) (rss : List Nat)
    (bidx : List (List Nat)) (x : List (List ℚ)) (y : List (ℚ × ℚ))
    (i g : Nat) (s0 : Nat) (hs : cfg.random_state = some s0) :
    create_tree B cfg rss bidx x y i g
      = ((create_tree B cfg rss bidx x y i 0).1, g) := by
  unfold create_tree
  rw [hs]

/-- In seeded mode the built trees do not depend on the incoming global
generator state. -/
theorem buildTreesLoop_seeded (B : TreeBehavior) (cfg : ForestCfg) (rss : List Nat)
    (bidx : List (List Nat)) (x : List (List ℚ)) (y : List (ℚ × ℚ))
    (s0 : Nat) (hs : cfg.random_state = some s0) :
    ∀ cnt i g₁ g₂,
      (buildTreesLoop B cfg rss bidx x y cnt i g₁).1
        = (buildTreesLoop B cfg rss bidx x y cnt i g₂).1 := by
  intro cnt
  induction cnt with
  | zero => intro i g₁ g₂; rfl
  | succ cnt ih =>
    intro i g₁ g₂
    simp only [buildTreesLoop]
    rw [create_tree_seeded B cfg rss bidx x y i g₁ s0 hs,
      create_tree_seeded B cfg rss bidx x y i g₂ s0 hs]
    simp only [List.cons.injEq]
    exact ⟨trivial, ih (i + 1) g₁ g₂⟩

/-- Core determinism of seeded fits: the observable fitted state does not
depend on the incoming global generator state or the ambient OS entropy. -/
theorem fit_seeded_core (B : TreeBehavior)
    (scorer : List ℚ → List CHF → List ℚ → ℚ) (cfg : ForestCfg) (cs : ClassState)
    (x : List (List ℚ)) (y : List (ℚ × ℚ)) (cpu : Int)
    (g₁ amb₁ g₂ amb₂ : Nat) (s0 : Nat) (hs : cfg.random_state = some s0) :
    ((fit B scorer cfg cs x y cpu g₁ amb₁).2).map fitCore
      = ((fit B scorer cfg cs x y cpu g₂ amb₂).2).map fitCore := by
  have hrs : fit_random_states cfg amb₂ = fit_random_states cfg amb₁ := by
    simp [fit_random_states, fitSeed, hs]
  simp only [fit, draw_bootstrap_samples, hs, hrs]
  have hdraw := drawGo_seeded_fst s0 (fit_random_states cfg amb₁) x.length
    cfg.n_estimators 0 g₁ g₂
  cases hd₁ : drawGo (some s0) (fit_random_states cfg amb₁)
      x.length cfg.n_estimators 0 g₁ with
  | error e₁ =>
    cases hd₂ : drawGo (some s0) (fit_random_states cfg amb₁)
        x.length cfg.n_estimators 0 g₂ with
    | error e₂ =>
      rw [hd₁, hd₂] at hdraw
      simp only [Except.map] at hdraw
      cases hdraw
      rfl
    | ok p₂ =>
      rw [hd₁, hd₂] at hdraw
      simp only [Except.map] at hdraw
      cases hdraw
  | ok p₁ =>
    cases hd₂ : drawGo (some s0) (fit_random_states cfg amb₁)
        x.length cfg.n_estimators 0 g₂ with
    | error e₂ =>
      rw [hd₁, hd₂] at hdraw
      simp only [Except.map] at hdraw
      cases hdraw
    | ok p₂ =>
      rw [hd₁, hd₂] at hdraw
      simp only [Except.map, Except.ok.injEq] at hdraw
      obtain ⟨bidx₁, gg₁⟩ := p₁
      obtain ⟨bidx₂, gg₂⟩ := p₂
      simp only at hdraw
      subst hdraw
      simp only [Except.map, Except.ok.injEq, fitCore]
      rw [buildTreesLoop_seeded B cfg _ bidx₁ x y s0 hs cfg.n_estimators 0 gg₁ gg₂]

/-- C4: for a fixed non-None random_state (and any job count), two independent
`fit` calls on identical data produce identical per-tree random states,
identical bootstrap index sets and identical fitted trees (hence identical
feature subsets and predictions): the observable fitted state is independent of
the incoming global generator state and the ambient OS entropy, the only
context that can differ between two calls. -/
theorem fit_seed_determinism (B : TreeBehavior)
    (scorer : List ℚ → List CHF → List ℚ → ℚ) (cfg : ForestCfg) (cs : ClassState)
    (x : List (List ℚ)) (y : List (ℚ × ℚ)) (cpu : Int)
    (g₁ amb₁ g₂ amb₂ : Nat) (s0 : Nat) (hs : cfg.random_state = some s0) :
    ((fit B scorer cfg cs x y cpu g₁ amb₁).2).map fitCore
      = ((fit B scorer cfg cs x y cpu g₂ amb₂).2).map fitCore :=
  fit_seeded_core B scorer cfg cs x y cpu g₁ amb₁ g₂ amb₂ s0 hs

/-- Projection of the core-state equality to the random-state/bootstrap pair. -/
theorem map_core_to_pair (e₁ e₂ : Except String FitResult)
    (h : e₁.map fitCore = e₂.map fitCore) :
    e₁.map (fun r => (r.random_states, r.bootstrap_idxs))
      = e₂.map (fun r => (r.random_states, r.bootstrap_idxs)) := by
  cases e₁ with
  | error a =>
    cases e₂ with
    | error b => simpa [Except.map] using h
    | ok r => simp [Except.map] at h
  | ok r₁ =>
    cases e₂ with
    | error b => simp [Except.map] at h
    | ok r₂ =>
      simp only [Except.map, Except.ok.injEq, fitCore, Prod.mk.injEq] at h ⊢
      exact ⟨h.2.1, h.2.2.1⟩

/-- Witness for C4: the concrete seeded fit is unchanged under a different
incoming generator state and ambient entropy. -/
theorem fit_seed_determinism_witness :
    ((fit demoBehavior demoScorer demoCfg ⟨[], []⟩ demoX demoY 4 0 0).2).map fitCore
      = ((fit demoBehavior demoScorer demoCfg ⟨[], []⟩ demoX demoY 4 99 7).2).map fitCore :=
  fit_seed_determinism demoBehavior demoScorer demoCfg ⟨[], []⟩ demoX demoY 4 0 0 99 7 5 rfl

/-- C5: the per-tree random states and all bootstrap index sets are generated
up front — the execution trace always passes resolveJobs, genRandomStates and
drawBootstraps before any tree is built — and, as a function of the forest seed
alone, they depend neither on the configured job count nor on the ambient
randomness context: fits differing only in `n_jobs` (or only in generator
context) produce the same per-tree random states and the same bootstrap index
sets, in the same tree-index order. -/
theorem fit_parallelism_invariance (B : TreeBehavior)
    (scorer : List ℚ → List CHF → List ℚ → ℚ) (cfg : ForestCfg) (cs : ClassState)
    (x : List (List ℚ)) (y : List (ℚ × ℚ)) (cpu : Int) (g amb g' amb' : Nat)
    (j₁ j₂ : Option Int) (s0 : Nat) (hs : cfg.random_state = some s0) :
    (fit B scorer { cfg with n_jobs := j₁ } cs x y cpu g amb).1.take 3
      = [Stage.resolveJobs, Stage.genRandomStates, Stage.drawBootstraps] ∧
    ((fit B scorer { cfg with n_jobs := j₁ } cs x y cpu g amb).2).map
        (fun r => (r.random_states, r.bootstrap_idxs))
      = ((fit B scorer { cfg with n_jobs := j₂ } cs x y cpu g amb).2).map
        (fun r => (r.random_states, r.bootstrap_idxs)) ∧
    ((fit B scorer { cfg with n_jobs := j₁ } cs x y cpu g amb).2).map
        (fun r => (r.random_states, r.bootstrap_idxs))
      = ((fit B scorer { cfg with n_jobs := j₁ } cs x y cpu g' amb').2).map
        (fun r => (r.random_states, r.bootstrap_idxs)) := by
  have hrsj : ∀ j : Option Int, ∀ a : Nat, fit_random_states { cfg with n_jobs := j } a
      = fit_random_states cfg a := fun _ _ => rfl
  refine ⟨?_, ?_, ?_⟩
  · simp only [fit]
    split <;> rfl
  · simp only [fit, draw_bootstrap_samples, hrsj]
    split <;> rfl
  · exact map_core_to_pair _ _
      (fit_seeded_core B scorer { cfg with n_jobs := j₁ } cs x y cpu g amb g' amb' s0 hs)

/-- Witness for C5: the concrete seeded fit has the up-front trace and gives
the same random states and bootstrap index sets for `n_jobs = 1` and
`n_jobs = 4`. -/
theorem fit_parallelism_witness :
    (fit demoBehavior demoScorer { demoCfg with n_jobs := some 1 } ⟨[], []⟩
        demoX demoY 4 0 0).1.take 3
      = [Stage.resolveJobs, Stage.genRandomStates, Stage.drawBootstraps] ∧
    ((fit demoBehavior demoScorer { demoCfg with n_jobs := some 1 } ⟨[], []⟩
        demoX demoY 4 0 0).2).map (fun r => (r.random_states, r.bootstrap_idxs))
      = ((fit demoBehavior demoScorer { demoCfg with n_jobs := some 4 } ⟨[], []⟩
        demoX demoY 4 0 0).2).map (fun r => (r.random_states, r.bootstrap_idxs)) :=
  ⟨(fit_parallelism_invariance demoBehavior demoScorer demoCfg ⟨[], []⟩ demoX demoY 4 0 0
      9 9 (some 1) (some 4) 5 rfl).1,
   (fit_parallelism_invariance demoBehavior demoScorer demoCfg ⟨[], []⟩ demoX demoY 4 0 0
      9 9 (some 1) (some 4) 5 rfl).2.1⟩

/-! ### C6: the empty-ensemble scenario -/

/-- With a nonzero sample count the bootstrap draw always succeeds. -/
theorem drawGo_ok_of_pos (ropt : Option Nat) (rss : List Nat) (n : Nat) (hn : n ≠ 0) :
    ∀ cnt i g, ∃ l g', drawGo ropt rss n cnt i g = .ok (l, g') := by
  intro cnt
  induction cnt with
  | zero => intro i g; exact ⟨[], g, rfl⟩
  | succ cnt ih =>
    intro i g
    cases ropt with
    | none =>
      obtain ⟨l, g', hrec⟩ := ih (i + 1) (lcgStep^[n] g)
      refine ⟨(List.range n).map (fun j => rngVal (lcgStep^[j] g) n) :: l, g', ?_⟩
      simp only [drawGo, npChoice, if_neg hn, hrec]
    | some s0 =>
      obtain ⟨l, g', hrec⟩ := ih (i + 1) (lcgStep^[n] (seedInit (rss.getD i 0)))
      refine ⟨(List.range n).map
        (fun j => rngVal (lcgStep^[j] (seedInit (rss.getD i 0))) n) :: l, g', ?_⟩
      simp only [drawGo, npChoice, if_neg hn, hrec]

/-- Under an oracle whose trees can never predict, every built tree reports
`prediction_possible = false`. -/
theorem create_tree_pp_false (B : TreeBehavior) (cfg : ForestCfg) (rss : List Nat)
    (bidx : List (List Nat)) (x : List (List ℚ)) (y : List (ℚ × ℚ)) (i g : Nat)
    (hB : ∀ inp, (B inp).1 = false) :
    (create_tree B cfg rss bidx x y i g).1.prediction_possible = false := by
  unfold create_tree
  cases cfg.random_state <;> exact hB _

/-- All trees of the build loop inherit the oracle's flag. -/
theorem buildTreesLoop_pp_false (B : TreeBehavior) (cfg : ForestCfg) (rss : List Nat)
    (bidx : List (List Nat)) (x : List (List ℚ)) (y : List (ℚ × ℚ))
    (hB : ∀ inp, (B inp).1 = false) :
    ∀ cnt i g tr, tr ∈ (buildTreesLoop B cfg rss bidx x y cnt i g).1 →
      tr.prediction_possible = false := by
  intro cnt
  induction cnt with
  | zero =>
    intro i g tr htr
    simp only [buildTreesLoop] at htr
    cases htr
  | succ cnt ih =>
    intro i g tr htr
    simp only [buildTreesLoop, List.mem_cons] at htr
    rcases htr with h | h
    · subst h
      exact create_tree_pp_false B cfg rss bidx x y i g hB
    · exact ih (i + 1) _ tr h

/-- Pairs whose trees can never predict are all dropped by the filter. -/
theorem filter_pp_nil (built : List SurvivalTree) (bidx : List (List Nat))
    (hall : ∀ tr ∈ built, tr.prediction_possible = false) :
    (built.zip bidx).filter (fun p => p.1.prediction_possible) = [] := by

  rw [List.filter_eq_nil_iff]
  intro p hp
  obtain ⟨a, b⟩ := p
  have ha : a ∈ built := (List.of_mem_zip hp).1
  simp [hall a ha]

/-- With no fitted trees every sample is skipped by the OOB loop. -/
theorem compute_oob_ensembles_nil (x : List (List ℚ)) :
    compute_oob_ensembles [] [] x = [] := by
  unfold compute_oob_ensembles
  rw [compute_oob_ensembles_fold]
  have : ∀ L : List Nat, L.filterMap (oobEntry [] [] x) = [] := by
    intro L
    induction L with
    | nil => rfl
    | cons s rest ih => simp only [List.filterMap_cons, oobEntry]; exact ih
  simp [this]

/-- C6: when every constructed tree reports `prediction_possible = False` and
the class-level lists start empty, `fit` completes without an exception, the
stored OOB score is the explicit undefined sentinel (`none`) rather than a
numeric value, and a subsequent `predict` on a nonempty input fails with the
empty-ensemble error rather than returning an empty or zero result. -/
theorem fit_empty_ensemble (B : TreeBehavior)
    (scorer : List ℚ → List CHF → List ℚ → ℚ) (cfg : ForestCfg)
    (x : List (List ℚ)) (y : List (ℚ × ℚ)) (cpu : Int) (g amb : Nat)
    (xr : List ℚ) (xs : List (List ℚ))
    (hB : ∀ inp, (B inp).1 = false) (hx : x ≠ []) :
    ∃ r, (fit B scorer cfg ⟨[], []⟩ x y cpu g amb).2 = .ok r ∧
      r.trees = [] ∧ r.bootstraps = [] ∧ r.oob_score = none ∧
      predict r.trees (xr :: xs) = .error "ValueError: No objects to concatenate" := by
  have hn : x.length ≠ 0 := fun h => hx (List.length_eq_zero.mp h)
  obtain ⟨bidx, g1, hd⟩ := drawGo_ok_of_pos cfg.random_state
    (fit_random_states cfg amb) x.length hn cfg.n_estimators 0 g
  simp only [fit, draw_bootstrap_samples, hd]
  have hfl := filterLoop_spec
    (buildTreesLoop B cfg (fit_random_states cfg amb)
      bidx x y cfg.n_estimators 0 g1).1 bidx [] []
  rw [filter_pp_nil _ bidx
    (fun tr htr => buildTreesLoop_pp_false B cfg _ bidx x y hB cfg.n_estimators 0 g1 tr htr)]
    at hfl
  simp only [List.map_nil, List.append_nil, List.nil_append] at hfl
  refine ⟨_, rfl, ?_, ?_, ?_, ?_⟩
  · simp [hfl]
  · simp [hfl]
  · simp only [compute_oob_score, hfl, compute_oob_ensembles_nil, concordance_index]
    rfl
  · simp only [hfl]
    rfl

/-- Witness for C6: a concrete all-degenerate fit keeps no trees, stores the
`none` sentinel, and the follow-up predict fails. -/
theorem fit_empty_ensemble_witness :
    ∃ r, (fit (fun _ => (false, fun _ => [])) demoScorer demoCfg ⟨[], []⟩
        demoX demoY 4 0 0).2 = .ok r ∧
      r.trees = [] ∧ r.bootstraps = [] ∧ r.oob_score = none ∧
      predict r.trees ([[5]] : List (List ℚ))
        = .error "ValueError: No objects to concatenate" :=
  fit_empty_ensemble (fun _ => (false, fun _ => [])) demoScorer demoCfg demoX demoY
    4 0 0 [5] [] (fun _ => rfl) (by simp [demoX])

/-! ### C7: zero-row training data -/

/-- Drawing from an empty population fails inside numpy's `choice`. -/
theorem drawGo_zero_pop (ropt : Option Nat) (rss : List Nat) (cnt i g : Nat) :
    drawGo ropt rss 0 (cnt + 1) i g = .error "ValueError: a must be non-empty" := rfl

/-- C7 (amended): on zero-row training data `fit` performs no up-front shape
validation: it resolves the job count and generates all per-tree random states
first, and (when at least one tree is planned) then fails inside bootstrap
sampling with numpy's empty-population ValueError — never with a data-shape
error raised before random-state generation. -/
theorem fit_zero_rows_behavior (B : TreeBehavior)
    (scorer : List ℚ → List CHF → List ℚ → ℚ) (cfg : ForestCfg) (cs : ClassState)
    (y : List (ℚ × ℚ)) (cpu : Int) (g amb : Nat)
    (hest : cfg.n_estimators ≠ 0) :
    (fit B scorer cfg cs [] y cpu g amb).1
      = [Stage.resolveJobs, Stage.genRandomStates, Stage.drawBootstraps] ∧
    (fit B scorer cfg cs [] y cpu g amb).2
      = .error "ValueError: a must be non-empty" := by
  obtain ⟨cnt, hcnt⟩ : ∃ k, cfg.n_estimators = k + 1 :=
    ⟨cfg.n_estimators - 1, by omega⟩
  rw [show (fit B scorer cfg cs [] y cpu g amb)
      = ([Stage.resolveJobs, Stage.genRandomStates, Stage.drawBootstraps],
         .error "ValueError: a must be non-empty") from ?_]
  · exact ⟨rfl, rfl⟩
  · simp only [fit, draw_bootstrap_samples, List.length_nil, hcnt, drawGo_zero_pop]

/-- C7 (counterexample): on a concrete zero-row input the trace shows that the
per-tree random states were generated and bootstrap sampling was entered; the
call fails with numpy's ValueError from inside the sampler, not with a
data-shape error raised before random-state generation. -/
theorem fit_zero_rows_counterexample :
    (fit demoBehavior demoScorer demoCfg ⟨[], []⟩ [] demoY 4 0 0).1
      = [Stage.resolveJobs, Stage.genRandomStates, Stage.drawBootstraps] ∧
    Stage.genRandomStates ∈ (fit demoBehavior demoScorer demoCfg ⟨[], []⟩ [] demoY 4 0 0).1 ∧
    (fit demoBehavior demoScorer demoCfg ⟨[], []⟩ [] demoY 4 0 0).2
      = .error "ValueError: a must be non-empty" := by
  have h1 : (fit demoBehavior demoScorer demoCfg ⟨[], []⟩ [] demoY 4 0 0).1
      = [Stage.resolveJobs, Stage.genRandomStates, Stage.drawBootstraps] := rfl
  refine ⟨h1, ?_, rfl⟩
  rw [h1]
  decide

/-- Witness for C7's amended statement at the concrete zero-row input. -/
theorem fit_zero_rows_witness :
    demoCfg.n_estimators ≠ 0 ∧
    (fit demoBehavior demoScorer demoCfg ⟨[], []⟩ [] demoY 4 0 0).2
      = .error "ValueError: a must be non-empty" :=
  ⟨by decide, (fit_zero_rows_behavior demoBehavior demoScorer demoCfg ⟨[], []⟩ demoY
    4 0 0 (by decide)).2⟩

/-! ### C8: class-level state accumulates across fit calls -/

/-- C8: the retained tree/bootstrap lists are class-level and never reset, so
they accumulate: the first concrete fit keeps 2 trees, and re-running the same
fit on the class state it left behind keeps 4 — repeated fit calls (and fits
from other instances sharing the class attributes) extend the same lists
instead of starting fresh. -/
theorem fit_accumulates_class_state :
    (demoFit.2).map (fun r => r.trees.length) = .ok 2 ∧
    ((fit demoBehavior demoScorer demoCfg ⟨demoRes.trees, demoRes.bootstraps⟩
        demoX demoY 4 0 0).2).map (fun r => r.trees.length) = .ok 4 :=
  ⟨rfl, rfl⟩

/-! ### C9: feature subsets -/

/-- C9: the feature subset passed to tree construction is a random permutation
of the feature indices `[0, n_features)` truncated to `round(sqrt(n_features))`
entries, drawn from the tree's own derived random state when the forest is
seeded and from the unseeded global generator otherwise (the source state is
`fIdxsSource`), and the recorded `n_features` is the truncation length. -/
theorem create_tree_feature_subset (B : TreeBehavior) (cfg : ForestCfg)
    (rss : List Nat) (bidx : List (List Nat)) (x : List (List ℚ))
    (y : List (ℚ × ℚ)) (i g : Nat) :
    (create_tree B cfg rss bidx x y i g).1.input.f_idxs
      = (npPermutation (fIdxsSource cfg rss i g) (ncols x)).take (roundSqrt (ncols x)) ∧
    (npPermutation (fIdxsSource cfg rss i g) (ncols x)).Perm (List.range (ncols x)) ∧
    (create_tree B cfg rss bidx x y i g).1.input.n_features = roundSqrt (ncols x) := by
  refine ⟨?_, npPermutation_perm _ _, ?_⟩
  · unfold create_tree fIdxsSource
    cases cfg.random_state <;> rfl
  · unfold create_tree
    cases cfg.random_state <;> rfl

/-! ### C10: fit overwrites n_jobs -/

/-- C10: `fit` permanently overwrites the `n_jobs` attribute: the `-1` sentinel
becomes the machine's CPU count, `None` becomes 1, the stored value is never
`-1` afterwards (with at least one CPU), re-resolving the stored value is the
identity (so the original sentinel is lost for later fit calls), and every
successful fit stores exactly the resolved value. -/
theorem fit_overwrites_n_jobs (cpu : Int) (nj : Option Int) (hcpu : 1 ≤ cpu) :
    resolve_n_jobs (some (-1)) cpu = cpu ∧
    resolve_n_jobs none cpu = 1 ∧
    resolve_n_jobs nj cpu ≠ -1 ∧
    resolve_n_jobs (some (resolve_n_jobs nj cpu)) cpu = resolve_n_jobs nj cpu ∧
    ∀ B scorer cfg cs x y g amb r,
      (fit B scorer cfg cs x y cpu g amb).2 = .ok r →
      r.n_jobs = resolve_n_jobs cfg.n_jobs cpu := by
  have hcne : cpu ≠ -1 := by omega
  refine ⟨by simp [resolve_n_jobs], by simp [resolve_n_jobs], ?_, ?_, ?_⟩
  · cases nj with
    | none => simp [resolve_n_jobs]
    | some k =>
      by_cases hk : k = -1
      · subst hk
        simp [resolve_n_jobs, hcne]
      · simp [resolve_n_jobs, hk]
  · cases nj with
    | none => simp [resolve_n_jobs]
    | some k =>
      by_cases hk : k = -1
      · subst hk
        simp [resolve_n_jobs, hcne]
      · simp [resolve_n_jobs, hk]
  · intro B scorer cfg cs x y g amb r hok
    simp only [fit] at hok
    split at hok
    · cases hok
    · cases hok
      rfl

/-- Witness for C10 on a 4-CPU machine. -/
theorem fit_overwrites_n_jobs_witness :
    (1 : Int) ≤ 4 ∧ resolve_n_jobs (some (-1)) 4 = 4 :=
  ⟨by norm_num, (fit_overwrites_n_jobs 4 none (by norm_num)).1⟩

end RSF
